import Mathlib

/-!
Verification of the reconciliation/ordering core of `solar-webui`
(`src/hooks/useInstances.ts`): the saved-order application function, the
localStorage order store, the refresh (`fetchData`) state transition, the
start/stop/restart actions, the WebSocket status overlay merge, and the
reorder controller (`moveHost` / `moveInstance`).

Modelling conventions:
* JavaScript's stable `Array.prototype.sort(cmp)` is modelled by
  `List.mergeSort` with `le a b := cmp a b ≤ 0` (merge sort is a stable
  sort, which is exactly what the ECMAScript specification guarantees).
* `localStorage` is a value of type `String → Option String`; `JSON.parse`
  is a function `String → Option Json` into a JSON value type, `none`
  modelling a parse failure (a thrown exception).  The order-store readers
  return the parse result UNVALIDATED, exactly as the source does (the
  `string[]` return annotation there is an unchecked cast): a stored value
  that is valid JSON but not an array of strings is passed through as-is.
  The call sites that consume a read at type `string[]` are modelled by the
  `...Typed` readers, which agree with the faithful readers whenever the
  stored value actually parses to an array of strings (the only case in
  which the source's downstream array operations do not throw).
* A thrown JavaScript value is `JsError`: `message = some m` models an
  `Error` with message `m`, `message = none` models a thrown non-`Error`
  value (so that `err instanceof Error ? err.message : fallback` becomes
  `errMessage err fallback`).
* `async` functions are state transformers; the external `solarClient` is a
  record of `Except`-valued operations.
-/

/-- Modelled from the spec: the mutable resource metric of a host
("e.g. memory").  The transport types file is not part of the analysed
sources; the metric is an opaque record (a JavaScript object, hence always
truthy). -/
structure MemoryInfo where
  used : Nat
  total : Nat
deriving DecidableEq

/-- Modelled from the spec: an Instance has an identifier (unique within its
owning host), an opaque configuration payload, a lifecycle status, an
optional start timestamp and an optional error message. -/
structure Instance where
  id : String
  config : String
  status : String
  startedAt : Option Nat
  errorMessage : Option String
deriving DecidableEq

/-- Modelled from the spec: a Host has a stable unique identifier, a display
name, a mutable status and a mutable resource metric. -/
structure Host where
  id : String
  name : String
  status : String
  memory : MemoryInfo
deriving DecidableEq

/-- `interface HostWithInstances extends Host { instances: Instance[] }`. -/
structure HostWithInstances where
  id : String
  name : String
  status : String
  memory : MemoryInfo
  instances : List Instance
deriving DecidableEq

/-- The spread `{ ...host, instances }` building a `HostWithInstances`
from a `Host`. -/
def Host.withInstances (h : Host) (instances : List Instance) :
    HostWithInstances :=
  { id := h.id, name := h.name, status := h.status, memory := h.memory,
    instances := instances }

/-- Modelled from the spec: an overlay entry pushed by the external real-time
channel — a "partial status snapshot (status enum + metric)" for one host.
The metric may be absent from a given push, which is why the source merges it
with `wsStatus.memory || host.memory`. -/
structure HostStatusEntry where
  status : String
  memory : Option MemoryInfo
deriving DecidableEq

/-- A thrown JavaScript value: `message = some m` is an `Error` carrying
message `m`; `message = none` is a thrown non-`Error` value. -/
structure JsError where
  message : Option String
deriving DecidableEq

/-- `err instanceof Error ? err.message : fallback`. -/
def errMessage (e : JsError) (fallback : String) : String :=
  e.message.getD fallback

/-- The external Data Source Adapter (`solarClient`): each operation either
completes or fails with a thrown value. -/
structure SolarClient where
  getHosts : Except JsError (List Host)
  getHostInstances : String → Except JsError (List Instance)
  startInstance : String → String → Except JsError Unit
  stopInstance : String → String → Except JsError Unit
  restartInstance : String → String → Except JsError Unit

-- --- localStorage helpers for host ordering ---

/-- A JavaScript JSON value, the codomain of `JSON.parse`. -/
inductive Json where
  | null : Json
  | bool : Bool → Json
  | num : Int → Json
  | str : String → Json
  | arr : List Json → Json
  | obj : List (String × Json) → Json

/-- The string carried by a JSON string value, if any. -/
def Json.strVal? : Json → Option String
  | .str s => some s
  | _ => none

/-- Decode a JSON value at the TypeScript type `string[]`: succeeds exactly
on arrays all of whose elements are strings.  The source never performs
this check; it exists here only to state which JSON values are identifier
sequences. -/
def Json.asStringList? : Json → Option (List String)
  | .arr xs => xs.mapM Json.strVal?
  | _ => none

def HOST_ORDER_KEY : String := "solar_host_order"

/-- `INSTANCE_ORDER_KEY_PREFIX + hostId` (the per-host storage key). -/
def instanceOrderKey (hostId : String) : String :=
  "solar_instance_order_" ++ hostId

/-- `readHostOrder`: `localStorage.getItem` then `JSON.parse` inside a
`try`/`catch`; a missing key, a falsy (empty) raw string, or a parse
failure (a throw, `parse raw = none`) all yield `[]`.  A SUCCESSFUL parse
is returned unvalidated, whatever its shape — the source's `string[]`
return type is an unchecked cast on `JSON.parse`'s output.  `storage`
models `localStorage`, `parse` models `JSON.parse`. -/
def readHostOrder (storage : String → Option String)
    (parse : String → Option Json) : Json :=
  match storage HOST_ORDER_KEY with
  | some raw => if raw = "" then Json.arr [] else (parse raw).getD (Json.arr [])
  | none => Json.arr []

/-- `readInstanceOrder(hostId)`: same shape as `readHostOrder` (including
the unvalidated pass-through of a successful parse), on the per-host key. -/
def readInstanceOrder (storage : String → Option String)
    (parse : String → Option Json) (hostId : String) : Json :=
  match storage (instanceOrderKey hostId) with
  | some raw => if raw = "" then Json.arr [] else (parse raw).getD (Json.arr [])
  | none => Json.arr []

/-- The host-order read at the `string[]` type its call site consumes it at
(`useState<string[]>(readHostOrder)`): `parse` here is `JSON.parse`
restricted to well-shaped results.  `readHostOrderTyped_agrees` shows this
is the faithful `readHostOrder` whenever the stored value parses to an
array of strings — the only case in which the source's later array
operations on the value do not throw. -/
def readHostOrderTyped (storage : String → Option String)
    (parse : String → Option (List String)) : List String :=
  match storage HOST_ORDER_KEY with
  | some raw => if raw = "" then [] else (parse raw).getD []
  | none => []

/-- The per-host instance-order read at the `string[]` type its call sites
(`moveInstance`, `mergedHosts`) consume it at; see `readHostOrderTyped`. -/
def readInstanceOrderTyped (storage : String → Option String)
    (parse : String → Option (List String)) (hostId : String) : List String :=
  match storage (instanceOrderKey hostId) with
  | some raw => if raw = "" then [] else (parse raw).getD []
  | none => []

-- --- applySavedOrder ---

/-- `orderMap.get(id)` where
`orderMap = new Map(savedOrder.map((id, idx) => [id, idx]))`.
`Map` keeps the last binding for a duplicated key, so this is the index of
the LAST occurrence of `a` in `savedOrder` (and `none` when absent). -/
def orderMapGet (savedOrder : List String) (a : String) : Option Nat :=
  match savedOrder.reverse.findIdx? (· = a) with
  | some j => some (savedOrder.length - 1 - j)
  | none => none

/-- The comparator passed to `sort` in `applySavedOrder`:
`ia - ib` when both ids are in the order map, `-1`/`1` when only one is,
`0` when neither is (preserving original order by sort stability). -/
def cmpSaved (savedOrder : List String) (a b : String) : Int :=
  match orderMapGet savedOrder a, orderMapGet savedOrder b with
  | some ia, some ib => (ia : Int) - ib
  | some _, none => -1
  | none, some _ => 1
  | none, none => 0

/-- The non-strict ordering induced by `cmpSaved` (JavaScript's stable sort
places `a` no later than `b` whenever `cmp a b ≤ 0`). -/
def leSaved (savedOrder : List String) (a b : String) : Bool :=
  decide (cmpSaved savedOrder a b ≤ 0)

/-- `applySavedOrder`: sort an array of items by a saved order array with a
stable sort; items not in the saved order compare equal to each other and
greater than every item in it, so they keep their original relative order at
the end.  If the saved order is empty the input list is returned unchanged.
Generic over the element type, with `id` the `.id` field access of the
TypeScript structural type `T extends { id: string }`. -/
def applySavedOrder {α : Type} (id : α → String) (items : List α)
    (savedOrder : List String) : List α :=
  if savedOrder.length = 0 then items
  else items.mergeSort (fun a b => leSaved savedOrder (id a) (id b))

-- --- the hook state and fetchData ---

/-- The reconciliation engine's reactive state: canonical snapshot `hosts`,
the `loading` flag and the last-error value `error`. -/
structure HookState where
  hosts : List HostWithInstances
  loading : Bool
  error : Option String
deriving DecidableEq

/-- `fetchData`: clear the error, fetch all hosts, then fetch each host's
instances (a per-host failure degrades that host to `instances: []`), and
publish the new snapshot; if the host-list fetch itself throws, keep the old
snapshot and store the error message; `finally` clears the loading flag. -/
def fetchData (c : SolarClient) (s : HookState) : HookState :=
  match c.getHosts with
  | .ok hostsData =>
      let hostsWithInstances := hostsData.map fun host =>
        match c.getHostInstances host.id with
        | .ok instances => host.withInstances instances
        | .error _ => host.withInstances []
      { hosts := hostsWithInstances, loading := false, error := none }
  | .error err =>
      { hosts := s.hosts, loading := false,
        error := some (errMessage err "Failed to fetch data") }

deriving instance DecidableEq for Except

/-- Result of one mutating action: the value returned (or error thrown) to
the caller, the hook state afterwards, and whether `fetchData` ran. -/
structure ActionResult where
  outcome : Except String Unit
  state : HookState
  refreshed : Bool
deriving DecidableEq

/-- `startInstance`: call the adapter, then refresh; a failure is rethrown as
`Error(err instanceof Error ? err.message : 'Failed to start instance')`
and no refresh happens (`fetchData` itself never throws, so only the adapter
call can reach the `catch`). -/
def startInstance (c : SolarClient) (s : HookState)
    (hostId instanceId : String) : ActionResult :=
  match c.startInstance hostId instanceId with
  | .ok _ => { outcome := .ok (), state := fetchData c s, refreshed := true }
  | .error err =>
      { outcome := .error (errMessage err "Failed to start instance"),
        state := s, refreshed := false }

/-- `stopInstance`: same shape as `startInstance`. -/
def stopInstance (c : SolarClient) (s : HookState)
    (hostId instanceId : String) : ActionResult :=
  match c.stopInstance hostId instanceId with
  | .ok _ => { outcome := .ok (), state := fetchData c s, refreshed := true }
  | .error err =>
      { outcome := .error (errMessage err "Failed to stop instance"),
        state := s, refreshed := false }

/-- `restartInstance`: same shape as `startInstance`. -/
def restartInstance (c : SolarClient) (s : HookState)
    (hostId instanceId : String) : ActionResult :=
  match c.restartInstance hostId instanceId with
  | .ok _ => { outcome := .ok (), state := fetchData c s, refreshed := true }
  | .error err =>
      { outcome := .error (errMessage err "Failed to restart instance"),
        state := s, refreshed := false }

-- --- reorder functions ---

/-- The `direction` argument of the reorder functions. -/
inductive Direction where
  | up
  | down
deriving DecidableEq

/-- The swap target index: `idx - 1` for `'up'`, `idx + 1` for `'down'`
(computed in `Int` to model the JavaScript `-1` underflow check). -/
def swapIdxOf (dir : Direction) (idx : Nat) : Int :=
  match dir with
  | .up => (idx : Int) - 1
  | .down => (idx : Int) + 1

/-- `[newOrder[idx], newOrder[swapIdx]] = [newOrder[swapIdx], newOrder[idx]]`
on a copy of `fullOrder` (both indices are in bounds when reached). -/
def swapPositions (fullOrder : List String) (idx j : Nat) : List String :=
  (fullOrder.set idx (fullOrder.getD j "")).set j (fullOrder.getD idx "")

/-- `moveHost`: build the full effective order of all current host ids,
locate the target, bounds-check the swap index, then swap, persist and
return the new in-memory order.  The first component is the new in-memory
`hostOrder`, the second is the order written to the store (`none` = nothing
written). -/
def moveHost (hosts : List HostWithInstances) (prev : List String)
    (hostId : String) (dir : Direction) :
    List String × Option (List String) :=
  let currentIds := hosts.map (·.id)
  let fullOrder := applySavedOrder (fun s : String => s) currentIds prev
  match fullOrder.findIdx? (· = hostId) with
  | none => (prev, none)
  | some idx =>
      let swapIdx := swapIdxOf dir idx
      if swapIdx < 0 ∨ (fullOrder.length : Int) ≤ swapIdx then (prev, none)
      else
        let newOrder := swapPositions fullOrder idx swapIdx.toNat
        (newOrder, some newOrder)

/-- `moveInstance`: like `moveHost` but within one host's instance list; the
saved order is the cached one or, on a cache miss, the one read from the
store.  The first component is the new `instanceOrders` cache
(`{ ...prev, [hostId]: newOrder }` on success), the second the key/order
pair written to the store. -/
def moveInstance (hosts : List HostWithInstances)
    (prev : String → Option (List String))
    (storage : String → Option String)
    (parse : String → Option (List String))
    (hostId instanceId : String) (dir : Direction) :
    (String → Option (List String)) × Option (String × List String) :=
  match hosts.find? (·.id = hostId) with
  | none => (prev, none)
  | some host =>
      let savedOrder := (prev hostId).getD (readInstanceOrderTyped storage parse hostId)
      let currentIds := host.instances.map (·.id)
      let fullOrder := applySavedOrder (fun s : String => s) currentIds savedOrder
      match fullOrder.findIdx? (· = instanceId) with
      | none => (prev, none)
      | some idx =>
          let swapIdx := swapIdxOf dir idx
          if swapIdx < 0 ∨ (fullOrder.length : Int) ≤ swapIdx then (prev, none)
          else
            let newOrder := swapPositions fullOrder idx swapIdx.toNat
            (fun k => if k = hostId then some newOrder else prev k,
             some (hostId, newOrder))

-- --- mergedHosts ---

/-- The overlay-merge step of `mergedHosts`: when the WebSocket status map
has an entry for the host, its `status` replaces the canonical one and its
`memory` replaces the canonical one when present
(`wsStatus.memory || host.memory`); otherwise the host is unchanged. -/
def mergeHostStatus (hostStatuses : String → Option HostStatusEntry)
    (host : HostWithInstances) : HostWithInstances :=
  match hostStatuses host.id with
  | some ws =>
      { host with status := ws.status, memory := ws.memory.getD host.memory }
  | none => host

/-- `mergedHosts`: for each host merge the overlay entry, sort its instances
by the cached (or lazily read) per-host saved order, then sort the host list
by the saved host order. -/
def mergedHosts (hosts : List HostWithInstances)
    (hostStatuses : String → Option HostStatusEntry)
    (instanceOrders : String → Option (List String))
    (storage : String → Option String)
    (parse : String → Option (List String))
    (hostOrder : List String) : List HostWithInstances :=
  let result := hosts.map fun host =>
    let base := mergeHostStatus hostStatuses host
    let savedInstanceOrder :=
      (instanceOrders host.id).getD (readInstanceOrderTyped storage parse host.id)
    { base with
        instances := applySavedOrder Instance.id base.instances savedInstanceOrder }
  applySavedOrder HostWithInstances.id result hostOrder

-- --- theory of the comparator ---

/-- The sort key induced by the comparator: the (last) index of the id in
the saved order, ids absent from it being keyed one past the end. -/
def keyOf (savedOrder : List String) (a : String) : Nat :=
  (orderMapGet savedOrder a).getD savedOrder.length

theorem orderMapGet_lt_length {s : List String} {a : String} {i : Nat}
    (h : orderMapGet s a = some i) : i < s.length := by
  unfold orderMapGet at h
  rcases h' : s.reverse.findIdx? (· = a) with _ | j
  · rw [h'] at h; cases h
  · rw [h'] at h
    rw [List.findIdx?_eq_some_iff_findIdx_eq] at h'
    have hj : j < s.length := by simpa using h'.1
    injection h with h
    omega

theorem orderMapGet_eq_none_iff {s : List String} {a : String} :
    orderMapGet s a = none ↔ a ∉ s := by
  constructor
  · intro h hmem
    have hex : ∃ x, x ∈ s.reverse ∧ (x = a : Bool) := ⟨a, by simpa using hmem, by simp⟩
    have hi := List.findIdx?_eq_some_of_exists hex
    unfold orderMapGet at h
    rw [hi] at h
    cases h
  · intro hmem
    unfold orderMapGet
    have hnone : s.reverse.findIdx? (· = a) = none := by
      rw [List.findIdx?_eq_none_iff]
      intro x hx
      simp only [decide_eq_false_iff_not]
      rintro rfl
      exact hmem (by simpa using hx)
    rw [hnone]

theorem orderMapGet_getElem_eq {s : List String} {a : String} {i : Nat}
    (h : orderMapGet s a = some i) : ∃ hi : i < s.length, s[i] = a := by
  have hlt := orderMapGet_lt_length h
  refine ⟨hlt, ?_⟩
  unfold orderMapGet at h
  rcases h' : s.reverse.findIdx? (· = a) with _ | j
  · rw [h'] at h; cases h
  · rw [h'] at h
    injection h with h
    rw [List.findIdx?_eq_some_iff_getElem] at h'
    obtain ⟨hj, hpj, _⟩ := h'
    have hj' : j < s.length := by simpa using hj
    have := List.getElem_reverse (l := s) (i := j) hj
    subst h
    simp only [decide_eq_true_eq] at hpj
    rw [← hpj, this]

theorem orderMapGet_isSome_iff {s : List String} {a : String} :
    (orderMapGet s a).isSome ↔ a ∈ s := by
  rcases hm : orderMapGet s a with _ | i
  · simpa using orderMapGet_eq_none_iff.mp hm
  · simp only [Option.isSome_some, true_iff]
    obtain ⟨hi, hgi⟩ := orderMapGet_getElem_eq hm
    rw [← hgi]
    exact List.getElem_mem hi

theorem orderMapGet_getElem {s : List String} (hnd : s.Nodup) {i : Nat}
    (hi : i < s.length) : orderMapGet s s[i] = some i := by
  unfold orderMapGet
  have hfind : s.reverse.findIdx? (· = s[i]) = some (s.length - 1 - i) := by
    rw [List.findIdx?_eq_some_iff_getElem]
    have hlen : s.length - 1 - i < s.reverse.length := by
      simp only [List.length_reverse]; omega
    refine ⟨hlen, ?_, ?_⟩
    · have := List.getElem_reverse (l := s) (i := s.length - 1 - i) hlen
      rw [this]
      have : s.length - 1 - (s.length - 1 - i) = i := by omega
      simp [this]
    · intro j hji
      have hj : j < s.reverse.length := Nat.lt_trans hji hlen
      have hj' : j < s.length := by simpa using hj
      have hre := List.getElem_reverse (l := s) (i := j) hj
      rw [hre]
      simp only [decide_eq_true_eq]
      intro heq
      have : s.length - 1 - j = i :=
        (List.Nodup.getElem_inj_iff hnd).mp heq
      omega
  rw [hfind]
  have harith : s.length - 1 - (s.length - 1 - i) = i := by omega
  simp [harith]

theorem leSaved_iff_keyOf {s : List String} {a b : String} :
    leSaved s a b = true ↔ keyOf s a ≤ keyOf s b := by
  rcases ha : orderMapGet s a with _ | ia <;>
    rcases hb : orderMapGet s b with _ | ib <;>
      simp only [leSaved, cmpSaved, keyOf, ha, hb, Option.getD_none,
        Option.getD_some, decide_eq_true_eq]
  · omega
  · have := orderMapGet_lt_length hb
    omega
  · have := orderMapGet_lt_length ha
    omega
  · have h1 := orderMapGet_lt_length ha
    have h2 := orderMapGet_lt_length hb
    omega

theorem leSaved_trans {s : List String} (a b c : String)
    (hab : leSaved s a b) (hbc : leSaved s b c) : leSaved s a c := by
  rw [leSaved_iff_keyOf] at *
  omega

theorem leSaved_total {s : List String} (a b : String) :
    leSaved s a b || leSaved s b a := by
  rcases Nat.le_total (keyOf s a) (keyOf s b) with h | h
  · simp [leSaved_iff_keyOf.mpr h]
  · simp [leSaved_iff_keyOf.mpr h]

theorem keyOf_of_not_mem {S : List String} {a : String} (h : a ∉ S) :
    keyOf S a = S.length := by
  unfold keyOf
  rw [orderMapGet_eq_none_iff.mpr h]
  rfl

theorem keyOf_lt_length_of_mem {S : List String} {a : String} (h : a ∈ S) :
    keyOf S a < S.length := by
  rcases hm : orderMapGet S a with _ | i
  · exact absurd (orderMapGet_eq_none_iff.mp hm) (by simp [h])
  · unfold keyOf
    rw [hm]
    exact orderMapGet_lt_length hm

theorem applySavedOrder_perm {α : Type} (id : α → String) (items : List α)
    (savedOrder : List String) :
    (applySavedOrder id items savedOrder).Perm items := by
  unfold applySavedOrder
  split
  · exact List.Perm.refl _
  · exact List.mergeSort_perm _ _

theorem applySavedOrder_pairwise_le {α : Type} (id : α → String)
    (items : List α) (savedOrder : List String)
    (hS : ¬ savedOrder.length = 0) :
    (applySavedOrder id items savedOrder).Pairwise
      (fun a b => leSaved savedOrder (id a) (id b) = true) := by
  unfold applySavedOrder
  rw [if_neg hS]
  exact @List.sorted_mergeSort α (fun a b => leSaved savedOrder (id a) (id b))
    (fun a b c hab hbc => leSaved_trans _ _ _ hab hbc)
    (fun a b => leSaved_total _ _) items

theorem applySavedOrder_known_ids {α : Type} (id : α → String) (E : List α)
    (S : List String) (hE : (E.map id).Nodup) (hS : S.Nodup) :
    ((applySavedOrder id E S).map id).filter (fun x => decide (x ∈ S))
      = S.filter (fun x => decide (x ∈ E.map id)) := by
  by_cases hlen : S.length = 0
  · rw [List.length_eq_zero] at hlen
    subst hlen
    simp
  · have hmapperm : (applySavedOrder id E S).map id |>.Perm (E.map id) :=
      (applySavedOrder_perm id E S).map id
    apply @List.Perm.eq_of_sorted String (fun a b => leSaved S a b = true) _ _
    · intro a b ha hb hab hba
      have haS : a ∈ S := by
        have := (List.mem_filter.mp ha).2
        simpa using this
      have hbS : b ∈ S := (List.mem_filter.mp hb).1
      rw [leSaved_iff_keyOf] at hab hba
      have hkey : keyOf S a = keyOf S b := Nat.le_antisymm hab hba
      rcases hma : orderMapGet S a with _ | ia
      · exact absurd (orderMapGet_eq_none_iff.mp hma) (by simp [haS])
      rcases hmb : orderMapGet S b with _ | ib
      · exact absurd (orderMapGet_eq_none_iff.mp hmb) (by simp [hbS])
      have hia : keyOf S a = ia := by unfold keyOf; rw [hma]; rfl
      have hib : keyOf S b = ib := by unfold keyOf; rw [hmb]; rfl
      obtain ⟨hlta, hga⟩ := orderMapGet_getElem_eq hma
      obtain ⟨hltb, hgb⟩ := orderMapGet_getElem_eq hmb
      have : ia = ib := by omega
      subst this
      rw [← hga, ← hgb]
    · have p1 := applySavedOrder_pairwise_le id E S hlen
      have p2 : ((applySavedOrder id E S).map id).Pairwise
          (fun a b => leSaved S a b = true) := List.pairwise_map.mpr p1
      exact List.Pairwise.sublist (List.filter_sublist _) p2
    · have pS : S.Pairwise (fun a b => leSaved S a b = true) := by
        rw [List.pairwise_iff_getElem]
        intro i j hi hj hij
        rw [leSaved_iff_keyOf]
        have h1 : orderMapGet S S[i] = some i := orderMapGet_getElem hS hi
        have h2 : orderMapGet S S[j] = some j := orderMapGet_getElem hS hj
        unfold keyOf
        rw [h1, h2]
        simpa using Nat.le_of_lt hij
      exact List.Pairwise.sublist (List.filter_sublist _) pS
    · have ndL : (((applySavedOrder id E S).map id).filter
          (fun x => decide (x ∈ S))).Nodup :=
        List.Nodup.filter _ (hmapperm.nodup_iff.mpr hE)
      have ndR : (S.filter (fun x => decide (x ∈ E.map id))).Nodup :=
        List.Nodup.filter _ hS
      apply List.perm_of_nodup_nodup_toFinset_eq ndL ndR
      apply Finset.ext
      intro x
      simp only [List.mem_toFinset, List.mem_filter, decide_eq_true_eq]
      rw [hmapperm.mem_iff]
      exact ⟨fun h => ⟨h.2, h.1⟩, fun h => ⟨h.2, h.1⟩⟩

theorem leSaved_of_not_mem {S : List String} {a b : String} (ha : a ∉ S)
    (hb : b ∉ S) : leSaved S a b = true := by
  rw [leSaved_iff_keyOf, keyOf_of_not_mem ha, keyOf_of_not_mem hb]

set_option maxHeartbeats 1000000 in
theorem applySavedOrder_unknown_filter {α : Type} (id : α → String)
    (E : List α) (S : List String) :
    (applySavedOrder id E S).filter (fun x => decide (id x ∉ S))
      = E.filter (fun x => decide (id x ∉ S)) := by
  by_cases hlen : S.length = 0
  · unfold applySavedOrder
    rw [if_pos hlen]
  · unfold applySavedOrder
    rw [if_neg hlen]
    set le := fun a b => leSaved S (id a) (id b) with hle
    set p := fun x => decide (id x ∉ S) with hp
    set c := E.filter p with hc
    have hcmem : ∀ x ∈ c, id x ∉ S := by
      intro x hx
      have := List.of_mem_filter hx
      simpa [hp] using this
    have hcpair : c.Pairwise (fun a b => le a b = true) := by
      rw [List.pairwise_iff_getElem]
      intro i j hi hj _
      exact leSaved_of_not_mem (hcmem _ (List.getElem_mem hi))
        (hcmem _ (List.getElem_mem hj))
    have hcsub : List.Sublist c (E.mergeSort le) :=
      @List.sublist_mergeSort α le E
        (fun a b d hab hbd => leSaved_trans _ _ _ hab hbd)
        (fun a b => leSaved_total _ _) c hcpair (List.filter_sublist E)
    have hcfilter : c.filter p = c :=
      List.filter_eq_self.mpr fun a ha => by
        simpa [hp] using hcmem a ha
    have hsub2 : List.Sublist c ((E.mergeSort le).filter p) := by
      have := List.Sublist.filter p hcsub
      rwa [hcfilter] at this
    have hpermf : (E.mergeSort le).filter p |>.Perm c :=
      (List.mergeSort_perm E le).filter p
    exact (hsub2.eq_of_length hpermf.length_eq.symm).symm

theorem applySavedOrder_known_before_unknown {α : Type} (id : α → String)
    (E : List α) (S : List String) :
    (applySavedOrder id E S).Pairwise (fun a b => id a ∉ S → id b ∉ S) := by
  by_cases hlen : S.length = 0
  · rw [List.length_eq_zero] at hlen
    subst hlen
    rw [List.pairwise_iff_getElem]
    intro i j hi hj hij _
    exact List.not_mem_nil _
  · apply (applySavedOrder_pairwise_le id E S hlen).imp
    intro a b hab ha hb
    rw [leSaved_iff_keyOf] at hab
    have h1 := keyOf_of_not_mem ha
    have h2 := keyOf_lt_length_of_mem hb
    omega

-- --- claim theorems: the Order Application Function ---

/-- C1: for every entity sequence `E` (with pairwise-distinct ids) and every
saved order `S` (duplicate-free), `applySavedOrder` returns `E` unchanged
when `S` is empty; the ids present in `S` occur in the result exactly in the
relative order `S` prescribes (the result's id sequence restricted to `S`
equals `S` restricted to the live ids); ids absent from `S` keep their
original relative order from `E`; and every entity whose id is absent from
`S` is placed after every entity whose id is present. -/
theorem c1_applySavedOrder_ordering {α : Type} (id : α → String) (E : List α)
    (S : List String) (hE : (E.map id).Nodup) (hS : S.Nodup) :
    (S = [] → applySavedOrder id E S = E)
    ∧ ((applySavedOrder id E S).map id).filter (fun x => decide (x ∈ S))
        = S.filter (fun x => decide (x ∈ E.map id))
    ∧ (applySavedOrder id E S).filter (fun x => decide (id x ∉ S))
        = E.filter (fun x => decide (id x ∉ S))
    ∧ (applySavedOrder id E S).Pairwise (fun a b => id a ∉ S → id b ∉ S) := by
  refine ⟨?_, applySavedOrder_known_ids id E S hE hS,
    applySavedOrder_unknown_filter id E S,
    applySavedOrder_known_before_unknown id E S⟩
  intro h
  subst h
  rfl

/-- Witness for C1 at the spec's scenario: saved host order `["h2","h1"]`,
live entities with ids `h1, h3, h2`, giving effective order
`["h2","h1","h3"]`. -/
theorem c1_applySavedOrder_ordering_witness :
    applySavedOrder (fun s : String => s) ["h1", "h3", "h2"] ["h2", "h1"]
        = ["h2", "h1", "h3"]
    ∧ ((["h2", "h1"] : List String) = [] →
          applySavedOrder (fun s : String => s) ["h1", "h3", "h2"] ["h2", "h1"]
            = ["h1", "h3", "h2"])
      ∧ ((applySavedOrder (fun s : String => s) ["h1", "h3", "h2"]
            ["h2", "h1"]).map (fun s => s)).filter
              (fun x => decide (x ∈ (["h2", "h1"] : List String)))
          = (["h2", "h1"] : List String).filter
              (fun x => decide (x ∈ ["h1", "h3", "h2"].map (fun s : String => s)))
      ∧ (applySavedOrder (fun s : String => s) ["h1", "h3", "h2"]
            ["h2", "h1"]).filter
              (fun x => decide (x ∉ (["h2", "h1"] : List String)))
          = ["h1", "h3", "h2"].filter
              (fun x => decide (x ∉ (["h2", "h1"] : List String)))
      ∧ (applySavedOrder (fun s : String => s) ["h1", "h3", "h2"]
            ["h2", "h1"]).Pairwise
              (fun a b => a ∉ (["h2", "h1"] : List String)
                → b ∉ (["h2", "h1"] : List String)) :=
  ⟨by simp [applySavedOrder, List.mergeSort, List.merge, leSaved, cmpSaved,
      orderMapGet],
   c1_applySavedOrder_ordering (fun s : String => s) ["h1", "h3", "h2"]
      ["h2", "h1"] (by decide) (by decide)⟩

/-- C9: applying the Order Application Function twice with the same saved
order yields the same result as applying it once (idempotence), for every
entity sequence and every saved order. -/
theorem c9_applySavedOrder_idempotent {α : Type} (id : α → String)
    (E : List α) (S : List String) :
    applySavedOrder id (applySavedOrder id E S) S = applySavedOrder id E S := by
  by_cases h : S.length = 0
  · simp only [applySavedOrder, if_pos h]
  · simp only [applySavedOrder, if_neg h]
    exact List.mergeSort_of_sorted
      (@List.sorted_mergeSort α (fun a b => leSaved S (id a) (id b))
        (fun a b c hab hbc => leSaved_trans _ _ _ hab hbc)
        (fun a b => leSaved_total _ _) E)

/-- C10: for every input sequence and every saved order — including saved
orders with duplicate ids or ids of entities that no longer exist —
`applySavedOrder` returns a permutation of its input: same length, exactly
the same elements, nothing dropped, duplicated or modified. -/
theorem c10_applySavedOrder_permutation {α : Type} (id : α → String)
    (items : List α) (savedOrder : List String) :
    (applySavedOrder id items savedOrder).Perm items
    ∧ (applySavedOrder id items savedOrder).length = items.length :=
  ⟨applySavedOrder_perm id items savedOrder,
   (applySavedOrder_perm id items savedOrder).length_eq⟩

-- --- claim theorems: fetchData and the actions ---

/-- C2: when the host-list fetch fails, `fetchData` records the failure's
message as the last-error value and leaves the canonical snapshot unchanged;
when it succeeds the error is cleared and the snapshot is replaced by the
freshly fetched one; the loading flag is cleared in both cases. -/
theorem c2_fetchData_error_handling (c : SolarClient) (s : HookState) :
    (∀ msg, c.getHosts = .error ⟨some msg⟩ →
        (fetchData c s).error = some msg
        ∧ (fetchData c s).hosts = s.hosts
        ∧ (fetchData c s).loading = false)
    ∧ (∀ hostsData, c.getHosts = .ok hostsData →
        (fetchData c s).error = none
        ∧ (fetchData c s).hosts = hostsData.map (fun host =>
            match c.getHostInstances host.id with
            | .ok instances => host.withInstances instances
            | .error _ => host.withInstances [])
        ∧ (fetchData c s).loading = false) := by
  constructor
  · intro msg h
    refine ⟨?_, ?_, ?_⟩ <;> simp [fetchData, h, errMessage]
  · intro hostsData h
    refine ⟨?_, ?_, ?_⟩ <;> simp [fetchData, h]

/-- Witness for C2: a client whose host-list fetch throws
`Error("boom")` keeps the previous snapshot and records "boom"; a client
whose fetch returns one host replaces the snapshot and clears the error. -/
theorem c2_fetchData_error_handling_witness :
    ((fetchData
        { getHosts := .error ⟨some "boom"⟩,
          getHostInstances := fun _ => .ok [],
          startInstance := fun _ _ => .ok (),
          stopInstance := fun _ _ => .ok (),
          restartInstance := fun _ _ => .ok () }
        { hosts := [Host.withInstances ⟨"h1", "one", "running", ⟨1, 2⟩⟩ []],
          loading := true, error := none }).error = some "boom"
      ∧ (fetchData
        { getHosts := .error ⟨some "boom"⟩,
          getHostInstances := fun _ => .ok [],
          startInstance := fun _ _ => .ok (),
          stopInstance := fun _ _ => .ok (),
          restartInstance := fun _ _ => .ok () }
        { hosts := [Host.withInstances ⟨"h1", "one", "running", ⟨1, 2⟩⟩ []],
          loading := true, error := none }).hosts
          = [Host.withInstances ⟨"h1", "one", "running", ⟨1, 2⟩⟩ []]
      ∧ (fetchData
        { getHosts := .error ⟨some "boom"⟩,
          getHostInstances := fun _ => .ok [],
          startInstance := fun _ _ => .ok (),
          stopInstance := fun _ _ => .ok (),
          restartInstance := fun _ _ => .ok () }
        { hosts := [Host.withInstances ⟨"h1", "one", "running", ⟨1, 2⟩⟩ []],
          loading := true, error := none }).loading = false)
    ∧ ((fetchData
        { getHosts := .ok [⟨"h2", "two", "stopped", ⟨3, 4⟩⟩],
          getHostInstances := fun _ => .ok [],
          startInstance := fun _ _ => .ok (),
          stopInstance := fun _ _ => .ok (),
          restartInstance := fun _ _ => .ok () }
        { hosts := [], loading := true, error := some "old" }).error = none
      ∧ (fetchData
        { getHosts := .ok [⟨"h2", "two", "stopped", ⟨3, 4⟩⟩],
          getHostInstances := fun _ => .ok [],
          startInstance := fun _ _ => .ok (),
          stopInstance := fun _ _ => .ok (),
          restartInstance := fun _ _ => .ok () }
        { hosts := [], loading := true, error := some "old" }).hosts
          = ([⟨"h2", "two", "stopped", ⟨3, 4⟩⟩] : List Host).map (fun host =>
              match (fun _ : String =>
                  (.ok [] : Except JsError (List Instance))) host.id with
              | .ok instances => host.withInstances instances
              | .error _ => host.withInstances [])
      ∧ (fetchData
        { getHosts := .ok [⟨"h2", "two", "stopped", ⟨3, 4⟩⟩],
          getHostInstances := fun _ => .ok [],
          startInstance := fun _ _ => .ok (),
          stopInstance := fun _ _ => .ok (),
          restartInstance := fun _ _ => .ok () }
        { hosts := [], loading := true, error := some "old" }).loading
          = false) :=
  ⟨(c2_fetchData_error_handling _ _).1 "boom" rfl,
   (c2_fetchData_error_handling _ _).2 [⟨"h2", "two", "stopped", ⟨3, 4⟩⟩] rfl⟩

/-- C5: a per-host instance-fetch failure does not abort the refresh: with a
successful host-list fetch the overall error stays unset, the snapshot has
one entry per fetched host, a host whose instance fetch failed is recorded
with an empty instance list, and a host whose instance fetch succeeded keeps
its actually fetched instances. -/
theorem c5_fetchData_per_host_isolation (c : SolarClient) (s : HookState)
    (hostsData : List Host) (h : c.getHosts = .ok hostsData) :
    (fetchData c s).error = none
    ∧ (fetchData c s).hosts.length = hostsData.length
    ∧ (∀ host ∈ hostsData, ∀ e, c.getHostInstances host.id = .error e →
        host.withInstances [] ∈ (fetchData c s).hosts)
    ∧ (∀ host ∈ hostsData, ∀ insts, c.getHostInstances host.id = .ok insts →
        host.withInstances insts ∈ (fetchData c s).hosts) := by
  refine ⟨by simp [fetchData, h], by simp [fetchData, h], ?_, ?_⟩
  · intro host hmem e he
    simp only [fetchData, h]
    exact List.mem_map.mpr ⟨host, hmem, by simp [he]⟩
  · intro host hmem insts hi
    simp only [fetchData, h]
    exact List.mem_map.mpr ⟨host, hmem, by simp [hi]⟩

/-- Witness for C5 at the spec's scenario: hosts A and B where fetching B's
instances fails — the refresh succeeds, A keeps its real instances, B gets
an empty instance list, and the error stays unset. -/
theorem c5_fetchData_per_host_isolation_witness :
    (fetchData
        { getHosts := .ok [⟨"A", "alpha", "running", ⟨1, 2⟩⟩,
            ⟨"B", "beta", "running", ⟨3, 4⟩⟩],
          getHostInstances := fun h =>
            if h = "A" then .ok [⟨"i1", "cfg", "running", none, none⟩]
            else .error ⟨some "io"⟩,
          startInstance := fun _ _ => .ok (),
          stopInstance := fun _ _ => .ok (),
          restartInstance := fun _ _ => .ok () }
        { hosts := [], loading := true, error := none }).error = none
    ∧ Host.withInstances ⟨"A", "alpha", "running", ⟨1, 2⟩⟩
        [⟨"i1", "cfg", "running", none, none⟩] ∈ (fetchData
        { getHosts := .ok [⟨"A", "alpha", "running", ⟨1, 2⟩⟩,
            ⟨"B", "beta", "running", ⟨3, 4⟩⟩],
          getHostInstances := fun h =>
            if h = "A" then .ok [⟨"i1", "cfg", "running", none, none⟩]
            else .error ⟨some "io"⟩,
          startInstance := fun _ _ => .ok (),
          stopInstance := fun _ _ => .ok (),
          restartInstance := fun _ _ => .ok () }
        { hosts := [], loading := true, error := none }).hosts
    ∧ Host.withInstances ⟨"B", "beta", "running", ⟨3, 4⟩⟩ [] ∈ (fetchData
        { getHosts := .ok [⟨"A", "alpha", "running", ⟨1, 2⟩⟩,
            ⟨"B", "beta", "running", ⟨3, 4⟩⟩],
          getHostInstances := fun h =>
            if h = "A" then .ok [⟨"i1", "cfg", "running", none, none⟩]
            else .error ⟨some "io"⟩,
          startInstance := fun _ _ => .ok (),
          stopInstance := fun _ _ => .ok (),
          restartInstance := fun _ _ => .ok () }
        { hosts := [], loading := true, error := none }).hosts := by
  have T := c5_fetchData_per_host_isolation
    { getHosts := .ok [⟨"A", "alpha", "running", ⟨1, 2⟩⟩,
        ⟨"B", "beta", "running", ⟨3, 4⟩⟩],
      getHostInstances := fun h =>
        if h = "A" then .ok [⟨"i1", "cfg", "running", none, none⟩]
        else .error ⟨some "io"⟩,
      startInstance := fun _ _ => .ok (),
      stopInstance := fun _ _ => .ok (),
      restartInstance := fun _ _ => .ok () }
    { hosts := [], loading := true, error := none }
    [⟨"A", "alpha", "running", ⟨1, 2⟩⟩, ⟨"B", "beta", "running", ⟨3, 4⟩⟩] rfl
  exact ⟨T.1,
    T.2.2.2 ⟨"A", "alpha", "running", ⟨1, 2⟩⟩ (by decide)
      [⟨"i1", "cfg", "running", none, none⟩] (by decide),
    T.2.2.1 ⟨"B", "beta", "running", ⟨3, 4⟩⟩ (by decide)
      ⟨some "io"⟩ (by decide)⟩

/-- C4: for each of `startInstance`, `stopInstance` and `restartInstance`:
if the adapter call fails, the operation fails with an error carrying the
adapter's message (the per-action generic fallback when the thrown value
carries no message), no refresh runs and the canonical snapshot is
unchanged; if the adapter call succeeds, a refresh runs before the
operation returns. -/
theorem c4_actions_error_handling (c : SolarClient) (s : HookState)
    (hostId instanceId : String) :
    (∀ e, c.startInstance hostId instanceId = .error e →
        (startInstance c s hostId instanceId).outcome
            = .error (errMessage e "Failed to start instance")
        ∧ (startInstance c s hostId instanceId).refreshed = false
        ∧ (startInstance c s hostId instanceId).state = s)
    ∧ (c.startInstance hostId instanceId = .ok () →
        (startInstance c s hostId instanceId).refreshed = true
        ∧ (startInstance c s hostId instanceId).state = fetchData c s)
    ∧ (∀ e, c.stopInstance hostId instanceId = .error e →
        (stopInstance c s hostId instanceId).outcome
            = .error (errMessage e "Failed to stop instance")
        ∧ (stopInstance c s hostId instanceId).refreshed = false
        ∧ (stopInstance c s hostId instanceId).state = s)
    ∧ (c.stopInstance hostId instanceId = .ok () →
        (stopInstance c s hostId instanceId).refreshed = true
        ∧ (stopInstance c s hostId instanceId).state = fetchData c s)
    ∧ (∀ e, c.restartInstance hostId instanceId = .error e →
        (restartInstance c s hostId instanceId).outcome
            = .error (errMessage e "Failed to restart instance")
        ∧ (restartInstance c s hostId instanceId).refreshed = false
        ∧ (restartInstance c s hostId instanceId).state = s)
    ∧ (c.restartInstance hostId instanceId = .ok () →
        (restartInstance c s hostId instanceId).refreshed = true
        ∧ (restartInstance c s hostId instanceId).state = fetchData c s)
    ∧ (∀ m fallback, errMessage ⟨some m⟩ fallback = m)
    ∧ (∀ fallback, errMessage ⟨none⟩ fallback = fallback) := by
  refine ⟨fun e h => ?_, fun h => ?_, fun e h => ?_, fun h => ?_,
    fun e h => ?_, fun h => ?_, fun m fallback => rfl, fun fallback => rfl⟩
  · exact ⟨by simp [startInstance, h], by simp [startInstance, h],
      by simp [startInstance, h]⟩
  · exact ⟨by simp [startInstance, h], by simp [startInstance, h]⟩
  · exact ⟨by simp [stopInstance, h], by simp [stopInstance, h],
      by simp [stopInstance, h]⟩
  · exact ⟨by simp [stopInstance, h], by simp [stopInstance, h]⟩
  · exact ⟨by simp [restartInstance, h], by simp [restartInstance, h],
      by simp [restartInstance, h]⟩
  · exact ⟨by simp [restartInstance, h], by simp [restartInstance, h]⟩

/-- Witness for C4 at the spec's scenario: a `startInstance` whose adapter
call fails with "connection refused" fails with that message, does not
refresh and leaves the snapshot unchanged; a `stopInstance` whose adapter
call succeeds refreshes. -/
theorem c4_actions_error_handling_witness :
    ((startInstance
        { getHosts := .ok [],
          getHostInstances := fun _ => .ok [],
          startInstance := fun _ _ => .error ⟨some "connection refused"⟩,
          stopInstance := fun _ _ => .ok (),
          restartInstance := fun _ _ => .ok () }
        { hosts := [Host.withInstances ⟨"h", "aitch", "running", ⟨1, 2⟩⟩ []],
          loading := false, error := none }
        "h" "i").outcome = .error "connection refused"
      ∧ (startInstance
        { getHosts := .ok [],
          getHostInstances := fun _ => .ok [],
          startInstance := fun _ _ => .error ⟨some "connection refused"⟩,
          stopInstance := fun _ _ => .ok (),
          restartInstance := fun _ _ => .ok () }
        { hosts := [Host.withInstances ⟨"h", "aitch", "running", ⟨1, 2⟩⟩ []],
          loading := false, error := none }
        "h" "i").refreshed = false
      ∧ (startInstance
        { getHosts := .ok [],
          getHostInstances := fun _ => .ok [],
          startInstance := fun _ _ => .error ⟨some "connection refused"⟩,
          stopInstance := fun _ _ => .ok (),
          restartInstance := fun _ _ => .ok () }
        { hosts := [Host.withInstances ⟨"h", "aitch", "running", ⟨1, 2⟩⟩ []],
          loading := false, error := none }
        "h" "i").state
          = { hosts := [Host.withInstances ⟨"h", "aitch", "running", ⟨1, 2⟩⟩ []],
              loading := false, error := none })
    ∧ (stopInstance
        { getHosts := .ok [],
          getHostInstances := fun _ => .ok [],
          startInstance := fun _ _ => .error ⟨some "connection refused"⟩,
          stopInstance := fun _ _ => .ok (),
          restartInstance := fun _ _ => .ok () }
        { hosts := [Host.withInstances ⟨"h", "aitch", "running", ⟨1, 2⟩⟩ []],
          loading := false, error := none }
        "h" "i").refreshed = true := by
  have T := c4_actions_error_handling
    { getHosts := .ok [],
      getHostInstances := fun _ => .ok [],
      startInstance := fun _ _ => .error ⟨some "connection refused"⟩,
      stopInstance := fun _ _ => .ok (),
      restartInstance := fun _ _ => .ok () }
    { hosts := [Host.withInstances ⟨"h", "aitch", "running", ⟨1, 2⟩⟩ []],
      loading := false, error := none }
    "h" "i"
  exact ⟨T.1 ⟨some "connection refused"⟩ rfl, (T.2.2.2.1 rfl).1⟩

-- --- claim theorems: overlay merge and order-store reads ---

/-- C3: in the effective-view derivation's overlay step, a host with an
overlay entry gets the entry's status and the entry's memory value (when the
entry carries one), with every other field (id, name, instances) unchanged;
a host without an overlay entry is unchanged in every field. -/
theorem c3_overlay_precedence
    (hostStatuses : String → Option HostStatusEntry)
    (host : HostWithInstances) :
    (∀ ws m, hostStatuses host.id = some ws → ws.memory = some m →
        (mergeHostStatus hostStatuses host).status = ws.status
        ∧ (mergeHostStatus hostStatuses host).memory = m
        ∧ (mergeHostStatus hostStatuses host).id = host.id
        ∧ (mergeHostStatus hostStatuses host).name = host.name
        ∧ (mergeHostStatus hostStatuses host).instances = host.instances)
    ∧ (hostStatuses host.id = none →
        mergeHostStatus hostStatuses host = host) := by
  constructor
  · intro ws m hws hm
    refine ⟨?_, ?_, ?_, ?_, ?_⟩ <;> simp [mergeHostStatus, hws, hm]
  · intro h
    simp [mergeHostStatus, h]

/-- Witness for C3 at the spec's scenario: canonical status "stopped" for
host H and an overlay entry `{status := "running", memory := some ⟨9, 9⟩}`;
the merged host reports "running" with the pushed memory, everything else
unchanged; a host with no overlay entry is untouched. -/
theorem c3_overlay_precedence_witness :
    ((mergeHostStatus
        (fun k => if k = "H" then some ⟨"running", some ⟨9, 9⟩⟩ else none)
        ⟨"H", "aitch", "stopped", ⟨1, 2⟩, []⟩).status = "running"
      ∧ (mergeHostStatus
        (fun k => if k = "H" then some ⟨"running", some ⟨9, 9⟩⟩ else none)
        ⟨"H", "aitch", "stopped", ⟨1, 2⟩, []⟩).memory = ⟨9, 9⟩
      ∧ (mergeHostStatus
        (fun k => if k = "H" then some ⟨"running", some ⟨9, 9⟩⟩ else none)
        ⟨"H", "aitch", "stopped", ⟨1, 2⟩, []⟩).id = "H"
      ∧ (mergeHostStatus
        (fun k => if k = "H" then some ⟨"running", some ⟨9, 9⟩⟩ else none)
        ⟨"H", "aitch", "stopped", ⟨1, 2⟩, []⟩).name = "aitch"
      ∧ (mergeHostStatus
        (fun k => if k = "H" then some ⟨"running", some ⟨9, 9⟩⟩ else none)
        ⟨"H", "aitch", "stopped", ⟨1, 2⟩, []⟩).instances = [])
    ∧ mergeHostStatus
        (fun k => if k = "H" then some ⟨"running", some ⟨9, 9⟩⟩ else none)
        ⟨"G", "gee", "stopped", ⟨1, 2⟩, []⟩
      = ⟨"G", "gee", "stopped", ⟨1, 2⟩, []⟩ := by
  refine ⟨?_, ?_⟩
  · exact (c3_overlay_precedence
      (fun k => if k = "H" then some ⟨"running", some ⟨9, 9⟩⟩ else none)
      ⟨"H", "aitch", "stopped", ⟨1, 2⟩, []⟩).1
      ⟨"running", some ⟨9, 9⟩⟩ ⟨9, 9⟩ (by decide) rfl
  · exact (c3_overlay_precedence
      (fun k => if k = "H" then some ⟨"running", some ⟨9, 9⟩⟩ else none)
      ⟨"G", "gee", "stopped", ⟨1, 2⟩, []⟩).2 (by decide)

theorem readHostOrderTyped_agrees (storage : String → Option String)
    (parseJ : String → Option Json) (parseT : String → Option (List String))
    (h : ∀ raw, parseJ raw
      = Option.map (fun l => Json.arr (l.map Json.str)) (parseT raw)) :
    readHostOrder storage parseJ
      = Json.arr ((readHostOrderTyped storage parseT).map Json.str) := by
  unfold readHostOrder readHostOrderTyped
  rcases storage HOST_ORDER_KEY with _ | raw
  · rfl
  · by_cases hraw : raw = ""
    · simp [hraw]
    · simp only [h raw, if_neg hraw]
      rcases parseT raw with _ | l <;> simp

theorem readInstanceOrderTyped_agrees (storage : String → Option String)
    (parseJ : String → Option Json) (parseT : String → Option (List String))
    (hostId : String)
    (h : ∀ raw, parseJ raw
      = Option.map (fun l => Json.arr (l.map Json.str)) (parseT raw)) :
    readInstanceOrder storage parseJ hostId
      = Json.arr ((readInstanceOrderTyped storage parseT hostId).map
          Json.str) := by
  unfold readInstanceOrder readInstanceOrderTyped
  rcases storage (instanceOrderKey hostId) with _ | raw
  · rfl
  · by_cases hraw : raw = ""
    · simp [hraw]
    · simp only [h raw, if_neg hraw]
      rcases parseT raw with _ | l <;> simp

/-- C6 (the bug, evaluated): the reads do absorb a missing key and a
throwing parse into the empty array, but a stored value that is valid JSON
of the wrong shape is returned UNVALIDATED.  With `"42"` stored under the
host-order key (`JSON.parse("42")` is the number `42`), `readHostOrder`
returns the JSON number `42` — not the empty sequence the claim requires,
and not a sequence of identifiers (`asStringList?` fails on it); likewise
`readInstanceOrder` passes a stored `"{}"` through as the empty JSON
object.  The source's own `string[]` return annotation and the spec's
fail-soft requirement are both violated on such inputs. -/
theorem c6_order_read_unvalidated :
    readHostOrder (fun _ => none) (fun _ => none) = Json.arr []
    ∧ readInstanceOrder
        (fun k => if k = instanceOrderKey "b" then some "#bad" else none)
        (fun _ => none) "b" = Json.arr []
    ∧ readHostOrder
        (fun k => if k = HOST_ORDER_KEY then some "42" else none)
        (fun raw => if raw = "42" then some (Json.num 42) else none)
      = Json.num 42
    ∧ Json.asStringList? (Json.num 42) = none
    ∧ readInstanceOrder
        (fun k => if k = instanceOrderKey "h" then some "{}" else none)
        (fun raw => if raw = "{}" then some (Json.obj []) else none) "h"
      = Json.obj []
    ∧ Json.asStringList? (Json.obj []) = none :=
  ⟨rfl, rfl, rfl, rfl, rfl, rfl⟩

-- --- claim theorems: the reorder controller ---

theorem swapPositions_spec (f : List String) (i j : Nat) (hi : i < f.length)
    (hj : j < f.length) (hij : i ≠ j) :
    (swapPositions f i j).length = f.length
    ∧ (swapPositions f i j).getD j "" = f.getD i ""
    ∧ (swapPositions f i j).getD i "" = f.getD j ""
    ∧ ∀ k, k ≠ i → k ≠ j →
        (swapPositions f i j).getD k "" = f.getD k "" := by
  unfold swapPositions
  refine ⟨by simp, ?_, ?_, ?_⟩
  · rw [List.getD_eq_getElem?_getD,
      List.getElem?_set_self (by simpa using hj), Option.getD_some]
  · rw [List.getD_eq_getElem?_getD, List.getElem?_set_ne (Ne.symm hij),
      List.getElem?_set_self hi, Option.getD_some]
  · intro k hki hkj
    rw [List.getD_eq_getElem?_getD, List.getElem?_set_ne (Ne.symm hkj),
      List.getElem?_set_ne (Ne.symm hki), List.getD_eq_getElem?_getD]

/-- C7: `moveHost` and `moveInstance` are no-ops — the cached order is
returned unchanged and nothing is written to the store — when the target id
is not in the current sibling set (including, for `moveInstance`, when the
host itself is gone), or when the swap index is out of bounds (first entity
moved up, last entity moved down). -/
theorem c7_move_noop (hosts : List HostWithInstances) (prev : List String)
    (prevMap : String → Option (List String))
    (storage : String → Option String)
    (parse : String → Option (List String))
    (hostId instanceId : String) (dir : Direction) :
    (hostId ∉ hosts.map (·.id) →
        moveHost hosts prev hostId dir = (prev, none))
    ∧ (∀ idx,
        (applySavedOrder (fun s : String => s) (hosts.map (·.id))
            prev).findIdx? (· = hostId) = some idx →
        ((dir = .up ∧ idx = 0)
          ∨ (dir = .down ∧ idx + 1
              = (applySavedOrder (fun s : String => s) (hosts.map (·.id))
                  prev).length)) →
        moveHost hosts prev hostId dir = (prev, none))
    ∧ (hosts.find? (·.id = hostId) = none →
        moveInstance hosts prevMap storage parse hostId instanceId dir
          = (prevMap, none))
    ∧ (∀ host, hosts.find? (·.id = hostId) = some host →
        instanceId ∉ host.instances.map (·.id) →
        moveInstance hosts prevMap storage parse hostId instanceId dir
          = (prevMap, none))
    ∧ (∀ host idx, hosts.find? (·.id = hostId) = some host →
        (applySavedOrder (fun s : String => s) (host.instances.map (·.id))
            ((prevMap hostId).getD
              (readInstanceOrderTyped storage parse hostId))).findIdx?
            (· = instanceId) = some idx →
        ((dir = .up ∧ idx = 0)
          ∨ (dir = .down ∧ idx + 1
              = (applySavedOrder (fun s : String => s)
                  (host.instances.map (·.id))
                  ((prevMap hostId).getD
                    (readInstanceOrderTyped storage parse hostId))).length)) →
        moveInstance hosts prevMap storage parse hostId instanceId dir
          = (prevMap, none)) := by
  refine ⟨?_, ?_, ?_, ?_, ?_⟩
  · intro habs
    have hperm := applySavedOrder_perm (fun s : String => s)
      (hosts.map (·.id)) prev
    have hfind : (applySavedOrder (fun s : String => s) (hosts.map (·.id))
        prev).findIdx? (· = hostId) = none := by
      rw [List.findIdx?_eq_none_iff]
      intro x hx
      simp only [decide_eq_false_iff_not]
      rintro rfl
      exact habs (hperm.subset hx)
    simp [moveHost, hfind]
  · intro idx hfind hcase
    rcases hcase with ⟨hdir, hidx⟩ | ⟨hdir, hidx⟩ <;> subst hdir
    · subst hidx
      simp [moveHost, hfind, swapIdxOf]
    · simp only [moveHost, hfind]
      rw [if_pos]
      right
      simp only [swapIdxOf]
      omega
  · intro h
    simp [moveInstance, h]
  · intro host hfh habs
    have hperm := applySavedOrder_perm (fun s : String => s)
      (host.instances.map (·.id))
      ((prevMap hostId).getD (readInstanceOrderTyped storage parse hostId))
    have hfind : (applySavedOrder (fun s : String => s)
        (host.instances.map (·.id))
        ((prevMap hostId).getD
          (readInstanceOrderTyped storage parse hostId))).findIdx?
        (· = instanceId) = none := by
      rw [List.findIdx?_eq_none_iff]
      intro x hx
      simp only [decide_eq_false_iff_not]
      rintro rfl
      exact habs (hperm.subset hx)
    simp [moveInstance, hfh, hfind]
  · intro host idx hfh hfind hcase
    rcases hcase with ⟨hdir, hidx⟩ | ⟨hdir, hidx⟩ <;> subst hdir
    · subst hidx
      simp [moveInstance, hfh, hfind, swapIdxOf]
    · simp only [moveInstance, hfh, hfind]
      rw [if_pos]
      right
      simp only [swapIdxOf]
      omega

/-- C8: a successful `moveHost` or `moveInstance` computes the full
effective order of the sibling set by applying the Order Application
Function to the current saved/cached order, swaps the target's position
with the adjacent position in the chosen direction, persists exactly that
full order, and updates the in-memory cached order to the same sequence
(for `moveInstance`, only the entry for the given host changes). -/
theorem c8_move_swap_success (hosts : List HostWithInstances)
    (prev : List String) (prevMap : String → Option (List String))
    (storage : String → Option String)
    (parse : String → Option (List String))
    (hostId instanceId : String) (dir : Direction) :
    (∀ idx,
      (applySavedOrder (fun s : String => s) (hosts.map (·.id))
          prev).findIdx? (· = hostId) = some idx →
      ((dir = .up ∧ 0 < idx)
        ∨ (dir = .down ∧ idx + 1
            < (applySavedOrder (fun s : String => s) (hosts.map (·.id))
                prev).length)) →
      ∃ newOrder,
        moveHost hosts prev hostId dir = (newOrder, some newOrder)
        ∧ newOrder.length = (applySavedOrder (fun s : String => s)
            (hosts.map (·.id)) prev).length
        ∧ newOrder.getD (swapIdxOf dir idx).toNat "" = hostId
        ∧ newOrder.getD idx ""
            = (applySavedOrder (fun s : String => s) (hosts.map (·.id))
                prev).getD (swapIdxOf dir idx).toNat ""
        ∧ ∀ k, k ≠ idx → k ≠ (swapIdxOf dir idx).toNat →
            newOrder.getD k ""
              = (applySavedOrder (fun s : String => s) (hosts.map (·.id))
                  prev).getD k "")
    ∧ (∀ host idx, hosts.find? (·.id = hostId) = some host →
      (applySavedOrder (fun s : String => s) (host.instances.map (·.id))
          ((prevMap hostId).getD
            (readInstanceOrderTyped storage parse hostId))).findIdx?
          (· = instanceId) = some idx →
      ((dir = .up ∧ 0 < idx)
        ∨ (dir = .down ∧ idx + 1
            < (applySavedOrder (fun s : String => s)
                (host.instances.map (·.id))
                ((prevMap hostId).getD
                  (readInstanceOrderTyped storage parse hostId))).length)) →
      ∃ newOrder,
        (moveInstance hosts prevMap storage parse hostId instanceId
            dir).2 = some (hostId, newOrder)
        ∧ (moveInstance hosts prevMap storage parse hostId instanceId
            dir).1 hostId = some newOrder
        ∧ (∀ k, k ≠ hostId →
            (moveInstance hosts prevMap storage parse hostId instanceId
              dir).1 k = prevMap k)
        ∧ newOrder.length = (applySavedOrder (fun s : String => s)
            (host.instances.map (·.id))
            ((prevMap hostId).getD
              (readInstanceOrderTyped storage parse hostId))).length
        ∧ newOrder.getD (swapIdxOf dir idx).toNat "" = instanceId
        ∧ newOrder.getD idx ""
            = (applySavedOrder (fun s : String => s)
                (host.instances.map (·.id))
                ((prevMap hostId).getD
                  (readInstanceOrderTyped storage parse hostId))).getD
                (swapIdxOf dir idx).toNat ""
        ∧ ∀ k, k ≠ idx → k ≠ (swapIdxOf dir idx).toNat →
            newOrder.getD k ""
              = (applySavedOrder (fun s : String => s)
                  (host.instances.map (·.id))
                  ((prevMap hostId).getD
                    (readInstanceOrderTyped storage parse hostId))).getD k "") := by
  constructor
  · intro idx hfind hcase
    obtain ⟨hlt, hp, -⟩ := List.findIdx?_eq_some_iff_getElem.mp hfind
    have hval : (applySavedOrder (fun s : String => s) (hosts.map (·.id))
        prev).getD idx "" = hostId := by
      rw [List.getD_eq_getElem?_getD, List.getElem?_eq_getElem hlt,
        Option.getD_some]
      simpa using hp
    have hjlt : (swapIdxOf dir idx).toNat
        < (applySavedOrder (fun s : String => s) (hosts.map (·.id))
            prev).length := by
      rcases hcase with ⟨hdir, h0⟩ | ⟨hdir, hlen⟩ <;> subst hdir <;>
        simp only [swapIdxOf] <;> omega
    have hne : (swapIdxOf dir idx).toNat ≠ idx := by
      rcases hcase with ⟨hdir, h0⟩ | ⟨hdir, hlen⟩ <;> subst hdir <;>
        simp only [swapIdxOf] <;> omega
    have hcond : ¬ (swapIdxOf dir idx < 0
        ∨ ((applySavedOrder (fun s : String => s) (hosts.map (·.id))
            prev).length : Int) ≤ swapIdxOf dir idx) := by
      rcases hcase with ⟨hdir, h0⟩ | ⟨hdir, hlen⟩ <;> subst hdir <;>
        simp only [swapIdxOf] <;> omega
    obtain ⟨hs1, hs2, hs3, hs4⟩ := swapPositions_spec
      (applySavedOrder (fun s : String => s) (hosts.map (·.id)) prev)
      idx (swapIdxOf dir idx).toNat hlt hjlt (Ne.symm hne)
    refine ⟨swapPositions
        (applySavedOrder (fun s : String => s) (hosts.map (·.id)) prev)
        idx (swapIdxOf dir idx).toNat, ?_, hs1, ?_, hs3, ?_⟩
    · simp only [moveHost, hfind]
      rw [if_neg hcond]
    · rw [hs2, hval]
    · intro k hk1 hk2
      exact hs4 k hk1 hk2
  · intro host idx hfh hfind hcase
    obtain ⟨hlt, hp, -⟩ := List.findIdx?_eq_some_iff_getElem.mp hfind
    have hval : (applySavedOrder (fun s : String => s)
        (host.instances.map (·.id))
        ((prevMap hostId).getD
          (readInstanceOrderTyped storage parse hostId))).getD idx ""
        = instanceId := by
      rw [List.getD_eq_getElem?_getD, List.getElem?_eq_getElem hlt,
        Option.getD_some]
      simpa using hp
    have hjlt : (swapIdxOf dir idx).toNat
        < (applySavedOrder (fun s : String => s)
            (host.instances.map (·.id))
            ((prevMap hostId).getD
              (readInstanceOrderTyped storage parse hostId))).length := by
      rcases hcase with ⟨hdir, h0⟩ | ⟨hdir, hlen⟩ <;> subst hdir <;>
        simp only [swapIdxOf] <;> omega
    have hne : (swapIdxOf dir idx).toNat ≠ idx := by
      rcases hcase with ⟨hdir, h0⟩ | ⟨hdir, hlen⟩ <;> subst hdir <;>
        simp only [swapIdxOf] <;> omega
    have hcond : ¬ (swapIdxOf dir idx < 0
        ∨ ((applySavedOrder (fun s : String => s)
            (host.instances.map (·.id))
            ((prevMap hostId).getD
              (readInstanceOrderTyped storage parse hostId))).length : Int)
          ≤ swapIdxOf dir idx) := by
      rcases hcase with ⟨hdir, h0⟩ | ⟨hdir, hlen⟩ <;> subst hdir <;>
        simp only [swapIdxOf] <;> omega
    obtain ⟨hs1, hs2, hs3, hs4⟩ := swapPositions_spec
      (applySavedOrder (fun s : String => s) (host.instances.map (·.id))
        ((prevMap hostId).getD (readInstanceOrderTyped storage parse hostId)))
      idx (swapIdxOf dir idx).toNat hlt hjlt (Ne.symm hne)
    refine ⟨swapPositions
        (applySavedOrder (fun s : String => s) (host.instances.map (·.id))
          ((prevMap hostId).getD (readInstanceOrderTyped storage parse hostId)))
        idx (swapIdxOf dir idx).toNat, ?_, ?_, ?_, hs1, ?_, hs3, ?_⟩
    · simp only [moveInstance, hfh, hfind]
      rw [if_neg hcond]
    · simp only [moveInstance, hfh, hfind]
      rw [if_neg hcond]
      simp
    · intro k hk
      simp only [moveInstance, hfh, hfind]
      rw [if_neg hcond]
      simp [hk]
    · rw [hs2, hval]
    · intro k hk1 hk2
      exact hs4 k hk1 hk2

/-- Witness for C7: with hosts `a, b` and no saved order, moving an unknown
host, moving the first host up, moving the last host down, and moving an
instance of a vanished host are all no-ops that write nothing. -/
theorem c7_move_noop_witness :
    moveHost [⟨"a", "ay", "r", ⟨1, 2⟩, []⟩, ⟨"b", "bee", "r", ⟨3, 4⟩, []⟩]
        [] "x" .up = ([], none)
    ∧ moveHost [⟨"a", "ay", "r", ⟨1, 2⟩, []⟩, ⟨"b", "bee", "r", ⟨3, 4⟩, []⟩]
        [] "a" .up = ([], none)
    ∧ moveHost [⟨"a", "ay", "r", ⟨1, 2⟩, []⟩, ⟨"b", "bee", "r", ⟨3, 4⟩, []⟩]
        [] "b" .down = ([], none)
    ∧ moveInstance
        [⟨"a", "ay", "r", ⟨1, 2⟩, []⟩, ⟨"b", "bee", "r", ⟨3, 4⟩, []⟩]
        (fun _ => none) (fun _ => none) (fun _ => none) "zz" "i" .up
        = ((fun _ => none), none) :=
  ⟨(c7_move_noop [⟨"a", "ay", "r", ⟨1, 2⟩, []⟩, ⟨"b", "bee", "r", ⟨3, 4⟩, []⟩]
      [] (fun _ => none) (fun _ => none) (fun _ => none) "x" "i" .up).1
      (by decide),
   (c7_move_noop [⟨"a", "ay", "r", ⟨1, 2⟩, []⟩, ⟨"b", "bee", "r", ⟨3, 4⟩, []⟩]
      [] (fun _ => none) (fun _ => none) (fun _ => none) "a" "i" .up).2.1
      0 (by decide) (Or.inl ⟨rfl, rfl⟩),
   (c7_move_noop [⟨"a", "ay", "r", ⟨1, 2⟩, []⟩, ⟨"b", "bee", "r", ⟨3, 4⟩, []⟩]
      [] (fun _ => none) (fun _ => none) (fun _ => none) "b" "i" .down).2.1
      1 (by decide) (Or.inr ⟨rfl, by decide⟩),
   (c7_move_noop [⟨"a", "ay", "r", ⟨1, 2⟩, []⟩, ⟨"b", "bee", "r", ⟨3, 4⟩, []⟩]
      [] (fun _ => none) (fun _ => none) (fun _ => none) "zz" "i" .up).2.2.1
      (by decide)⟩

/-- Witness for C8 at the spec's scenario: moving instance "i2" up within
saved order `["i1","i2","i3"]` persists `["i2","i1","i3"]` and caches the
same sequence; moving host "b" up within hosts `a, b` succeeds likewise. -/
theorem c8_move_swap_success_witness :
    (moveInstance
        [⟨"h", "aitch", "r", ⟨1, 2⟩,
          [⟨"i1", "c", "running", none, none⟩,
           ⟨"i2", "c", "running", none, none⟩,
           ⟨"i3", "c", "running", none, none⟩]⟩]
        (fun k => if k = "h" then some ["i1", "i2", "i3"] else none)
        (fun _ => none) (fun _ => none) "h" "i2" .up).2
        = some ("h", ["i2", "i1", "i3"])
    ∧ (moveInstance
        [⟨"h", "aitch", "r", ⟨1, 2⟩,
          [⟨"i1", "c", "running", none, none⟩,
           ⟨"i2", "c", "running", none, none⟩,
           ⟨"i3", "c", "running", none, none⟩]⟩]
        (fun k => if k = "h" then some ["i1", "i2", "i3"] else none)
        (fun _ => none) (fun _ => none) "h" "i2" .up).1 "h"
        = some ["i2", "i1", "i3"]
    ∧ (∃ newOrder,
        moveHost [⟨"a", "ay", "r", ⟨1, 2⟩, []⟩,
            ⟨"b", "bee", "r", ⟨3, 4⟩, []⟩] [] "b" .up
          = (newOrder, some newOrder)
        ∧ newOrder.length = (applySavedOrder (fun s : String => s)
            (([⟨"a", "ay", "r", ⟨1, 2⟩, []⟩, ⟨"b", "bee", "r", ⟨3, 4⟩, []⟩] :
              List HostWithInstances).map (·.id)) []).length
        ∧ newOrder.getD (swapIdxOf .up 1).toNat "" = "b"
        ∧ newOrder.getD 1 ""
            = (applySavedOrder (fun s : String => s)
                (([⟨"a", "ay", "r", ⟨1, 2⟩, []⟩,
                  ⟨"b", "bee", "r", ⟨3, 4⟩, []⟩] :
                  List HostWithInstances).map (·.id)) []).getD
                (swapIdxOf .up 1).toNat ""
        ∧ ∀ k, k ≠ 1 → k ≠ (swapIdxOf .up 1).toNat →
            newOrder.getD k ""
              = (applySavedOrder (fun s : String => s)
                  (([⟨"a", "ay", "r", ⟨1, 2⟩, []⟩,
                    ⟨"b", "bee", "r", ⟨3, 4⟩, []⟩] :
                    List HostWithInstances).map (·.id)) []).getD k "") := by
  refine ⟨?_, ?_, ?_⟩
  · simp [moveInstance, applySavedOrder, List.mergeSort, List.merge,
      leSaved, cmpSaved, orderMapGet, swapIdxOf, swapPositions,
      readInstanceOrder, instanceOrderKey]
  · simp [moveInstance, applySavedOrder, List.mergeSort, List.merge,
      leSaved, cmpSaved, orderMapGet, swapIdxOf, swapPositions,
      readInstanceOrder, instanceOrderKey]
  · exact (c8_move_swap_success
      [⟨"a", "ay", "r", ⟨1, 2⟩, []⟩, ⟨"b", "bee", "r", ⟨3, 4⟩, []⟩] []
      (fun _ => none) (fun _ => none) (fun _ => none) "b" "i" .up).1
      1 (by decide) (Or.inl ⟨rfl, by decide⟩)
